import Mathlib

/-!
Shallow embedding of the real-time room broadcast hub of iWebShelter
(`src/api/websocket.py`, class `ConnectionManager` and the websocket
endpoint receive loop).

Python dictionaries are modelled as association lists (insertion order
preserved, keys unique on all reachable states); wall-clock timestamps
(Python floats from `datetime.datetime.now().timestamp()`) are modelled
as integers (every comparison the code makes is against an integer
number of seconds); a websocket handle is a `Nat`; JSON frames are
modelled as association lists from field names to string values.
Fallible Python
code (dict indexing that can raise `KeyError`) is modelled by explicit
error flags / `Option` results.
-/

namespace WebShelter

/-- Python `d.get(k)` / `d[k]` lookup on an association list
(first matching key wins, as in a dict with unique keys). -/
def alistLookup {K V : Type} [DecidableEq K] : List (K × V) → K → Option V
  | [], _ => none
  | (k', v) :: t, k => if k' = k then some v else alistLookup t k

/-- Python `d[k] = v`: replace the value at an existing key in place,
otherwise append the new binding at the end (dict insertion order). -/
def alistInsert {K V : Type} [DecidableEq K] : List (K × V) → K → V → List (K × V)
  | [], k, v => [(k, v)]
  | (k', v') :: t, k, v => if k' = k then (k, v) :: t else (k', v') :: alistInsert t k v

/-- Python `del d[k]` (as used in the source: always guarded by `k in d`):
remove the first binding for `k`. -/
def alistErase {K V : Type} [DecidableEq K] : List (K × V) → K → List (K × V)
  | [], _ => []
  | (k', v') :: t, k => if k' = k then t else (k', v') :: alistErase t k

/-- Python `list.remove(x)`: drop the first occurrence of `x`. -/
def listRemove {A : Type} [DecidableEq A] : List A → A → List A
  | [], _ => []
  | a :: t, x => if a = x then t else a :: listRemove t x

/-- Keys of an association list are pairwise distinct (true of every
state reachable through the manager's operations, since Python dicts
have unique keys). -/
def keysNodup {K V : Type} (l : List (K × V)) : Prop := (l.map Prod.fst).Nodup

instance {K V : Type} [DecidableEq K] (l : List (K × V)) : Decidable (keysNodup l) := by
  unfold keysNodup; infer_instance

/-- One entry of the configured `safe_room_ids` list.  The config file is
YAML, so an entry is either an int (unquoted number) or a string. -/
inductive RoomEntry : Type
  | rint (n : Nat)
  | rstr (s : String)
deriving DecidableEq, Repr

/-- Python `str.isdigit()`: non-empty and all characters digits. -/
def strIsDigit (s : String) : Bool := !s.isEmpty && s.data.all Char.isDigit

/-- Python `str.zfill(w)`: left-pad with `'0'` up to width `w`. -/
def zfill (s : String) (w : Nat) : String :=
  if w ≤ s.length then s else ⟨List.replicate (w - s.length) '0' ++ s.data⟩

/-- Embeds `ConnectionManager.normalize_room_id`, specialised to string input
(every call site in the embedded code passes a string):
`room_id.zfill(6) if room_id.isdigit() else room_id`. -/
def normalize_room_id (room_id : String) : String :=
  if strIsDigit room_id then zfill room_id 6 else room_id

/-- Python `x == s` for a `safe_room_ids` entry `x` and string `s`, as
evaluated by the raw `in` test in `broadcast` (line 131): an int never
equals a string in Python. -/
def roomEntryEqStr : RoomEntry → String → Bool
  | .rint _, _ => false
  | .rstr t, s => t == s

/-- Models `normalized_room_id in self.safe_room_ids` as written in
`ConnectionManager.broadcast` (line 131): raw membership, no conversion. -/
def safeContains (l : List RoomEntry) (s : String) : Bool :=
  l.any (fun e => roomEntryEqStr e s)

/-- The conversion used by the logging paths (lines 100, 179, 249, 399):
`str(room).zfill(6) if isinstance(room, int) else room`. -/
def roomEntryToStr : RoomEntry → String
  | .rint n => zfill (toString n) 6
  | .rstr s => s

/-- Embeds `safe_rooms_str` as computed at the four logging sites. -/
def safe_rooms_str (l : List RoomEntry) : List String := l.map roomEntryToStr

/-- A JSON frame / broadcast message: field name to (string) value. -/
abbrev Message := List (String × String)

/-- The redaction placeholder `"匿名"`. -/
def anonPlaceholder : String := "匿名"

/-- The default client label `"unknown_client"`. -/
def unknownClient : String := "unknown_client"

/-- The mutable state of `ConnectionManager` (lines 15-29). -/
structure ConnState : Type where
  /-- Python `{room_id: [websocket, ...]}` -/
  active_connections : List (String × List Nat)
  /-- Python `{websocket: client_id}` -/
  client_ids : List (Nat × String)
  /-- Python `{websocket: timestamp}` -/
  connection_times : List (Nat × Int)
  /-- Python `{room_id: {client_id: timestamp}}` (last connection / disconnect) -/
  last_connection_times : List (String × List (String × Int))
  /-- Python `{room_id: {client_id: timestamp}}` (last refresh notification) -/
  last_refresh_times : List (String × List (String × Int))
  /-- Python `{room_id: {client_id: timestamp}}` (last activity) -/
  last_activity_times : List (String × List (String × Int))
  /-- configured `safe_room_ids` -/
  safe_room_ids : List RoomEntry
deriving DecidableEq, Repr

/-- Lookup in a two-level map `{room_id: {client_id: t}}`. -/
def alist2Lookup (l : List (String × List (String × Int))) (r c : String) : Option Int :=
  match alistLookup l r with
  | none => none
  | some m => alistLookup m c

/-- Embeds `ConnectionManager.connect` (lines 31-47), with `now` the value of
`datetime.datetime.now().timestamp()`. -/
def connect (st : ConnState) (ws : Nat) (room_id : String) (now : Int) : ConnState :=
  let norm := normalize_room_id room_id
  let st1 :=
    if (alistLookup st.active_connections norm).isNone then
      { st with
          active_connections := alistInsert st.active_connections norm [],
          last_connection_times := alistInsert st.last_connection_times norm [],
          last_refresh_times := alistInsert st.last_refresh_times norm [] }
    else st
  let conns := (alistLookup st1.active_connections norm).getD []
  { st1 with
      active_connections := alistInsert st1.active_connections norm (conns ++ [ws]),
      client_ids := alistInsert st1.client_ids ws unknownClient,
      connection_times := alistInsert st1.connection_times ws now }

/-- Embeds `ConnectionManager.disconnect` (lines 49-104).  The boolean result is
whether a disconnect duration report is emitted (line 97:
`duration > 5 and not is_already_disconnected`). -/
def disconnect (st : ConnState) (ws : Nat) (room_id : String) (now : Int) :
    ConnState × Bool :=
  let norm := normalize_room_id room_id
  let client_id := (alistLookup st.client_ids ws).getD unknownClient
  let is_already_disconnected := (alistLookup st.connection_times ws).isNone
  let connection_start := (alistLookup st.connection_times ws).getD 0
  let duration := now - connection_start
  let st1 := { st with connection_times := alistErase st.connection_times ws }
  let st2 :=
    match alistLookup st1.active_connections norm with
    | some conns =>
      if ws ∈ conns then
        let remaining := listRemove conns ws
        if remaining.isEmpty then
          { st1 with
              active_connections := alistErase st1.active_connections norm,
              last_connection_times := alistErase st1.last_connection_times norm,
              last_refresh_times := alistErase st1.last_refresh_times norm }
        else
          let stR := { st1 with
              active_connections := alistInsert st1.active_connections norm remaining }
          if client_id ≠ unknownClient then
            match alistLookup stR.last_connection_times norm with
            | some m =>
              { stR with last_connection_times :=
                  alistInsert stR.last_connection_times norm (alistInsert m client_id now) }
            | none => stR
          else stR
      else st1
    | none => st1
  let st3 := { st2 with client_ids := alistErase st2.client_ids ws }
  (st3, decide (duration > 5) && !is_already_disconnected)

/-- Result of `ConnectionManager.broadcast`: every `send_json` call made
(connection handle paired with the exact message value passed), plus the
`successful_sends` / `failed_sends` counters of lines 123-124. -/
structure BroadcastResult : Type where
  attempts : List (Nat × Message)
  successful_sends : Nat
  failed_sends : Nat
deriving DecidableEq, Repr

/-- The message passed to `send_json` for one connection in `broadcast`
(lines 130-136): if `normalized_room_id in self.safe_room_ids` (raw
membership) and `'client_id' in message`, a copy with `client_id`
replaced by the placeholder; otherwise the message itself. -/
def outboundMessage (safe : List RoomEntry) (norm : String) (message : Message) : Message :=
  if safeContains safe norm && (alistLookup message "client_id").isSome then
    alistInsert message "client_id" anonPlaceholder
  else message

/-- One iteration of the `for connection in ...` send loop of `broadcast`
(lines 126-144): attempt `send_json` with the (possibly redacted)
message; on an exception bump `failed_sends`, otherwise
`successful_sends`. -/
def broadcastStep (safe : List RoomEntry) (norm : String) (message : Message)
    (sendFails : Nat → Bool) (acc : BroadcastResult) (c : Nat) : BroadcastResult :=
  let toSend := outboundMessage safe norm message
  if sendFails c then
    ⟨acc.attempts ++ [(c, toSend)], acc.successful_sends, acc.failed_sends + 1⟩
  else
    ⟨acc.attempts ++ [(c, toSend)], acc.successful_sends + 1, acc.failed_sends⟩

/-- Embeds `ConnectionManager.broadcast` (lines 106-151).  `sendFails ws = true`
models `ws.send_json` raising (caught by the per-connection `except`,
lines 139-144).  The returned state is the manager state after the call:
`broadcast` writes no manager field. -/
def broadcast (st : ConnState) (room_id : String) (message : Message)
    (sendFails : Nat → Bool) : ConnState × BroadcastResult :=
  let norm := normalize_room_id room_id
  match alistLookup st.active_connections norm with
  | none => (st, ⟨[], 0, 0⟩)
  | some conns =>
    (st, conns.foldl (broadcastStep st.safe_room_ids norm message sendFails) ⟨[], 0, 0⟩)

/-- Result of `ConnectionManager.update_client_id`: the state reached
(including partial mutations made before a raise), whether a `KeyError`
escaped, whether the refresh branch (line 183) fired, and whether a
refresh notification (line 188) was emitted. -/
structure UCIResult : Type where
  state : ConnState
  error : Bool
  refresh : Bool
  notified : Bool
deriving DecidableEq, Repr

/-- Lines 196-200 of `update_client_id`: the unconditional trailing
updates.  Line 197 indexes `self.last_connection_times[normalized_room_id]`
directly and raises `KeyError` when the room has no entry; lines 199-200
use `.get` and create the activity sub-map if needed. -/
def uciFinish (st : ConnState) (norm client_id : String) (now : Int)
    (refresh notified : Bool) : UCIResult :=
  match alistLookup st.last_connection_times norm with
  | none => ⟨st, true, refresh, notified⟩
  | some m =>
    let st1 := { st with last_connection_times :=
                  alistInsert st.last_connection_times norm (alistInsert m client_id now) }
    let act := (alistLookup st1.last_activity_times norm).getD []
    let st2 := { st1 with last_activity_times :=
                  alistInsert st1.last_activity_times norm (alistInsert act client_id now) }
    ⟨st2, false, refresh, notified⟩

/-- Embeds `ConnectionManager.update_client_id` (lines 161-200), with `now` the
value of `datetime.datetime.now().timestamp()`.  The refresh notification
log (line 188) precedes the write at line 189, so in the (unreachable on
well-formed states) case where line 189 raises, `notified` is already
true. -/
def update_client_id (st : ConnState) (ws : Nat) (client_id room_id : String)
    (now : Int) : UCIResult :=
  let norm := normalize_room_id room_id
  let st0 := { st with client_ids := alistInsert st.client_ids ws client_id }
  let last_connection := (alist2Lookup st0.last_connection_times norm client_id).getD 0
  let reconnect_time := now - last_connection
  let last_refresh := (alist2Lookup st0.last_refresh_times norm client_id).getD 0
  let since_last_refresh := now - last_refresh
  if reconnect_time > 0 ∧ reconnect_time < 5 then
    if since_last_refresh > 10 then
      match alistLookup st0.last_refresh_times norm with
      | none => ⟨st0, true, true, true⟩
      | some m =>
        let st1 := { st0 with last_refresh_times :=
                      alistInsert st0.last_refresh_times norm (alistInsert m client_id now) }
        uciFinish st1 norm client_id now true true
    else uciFinish st0 norm client_id now true false
  else uciFinish st0 norm client_id now false false

/-- Embeds `ConnectionManager.update_activity_time` (lines 202-208). -/
def update_activity_time (st : ConnState) (room_id client_id : String)
    (now : Int) : ConnState :=
  let norm := normalize_room_id room_id
  let m := (alistLookup st.last_activity_times norm).getD []
  { st with last_activity_times :=
      alistInsert st.last_activity_times norm (alistInsert m client_id now) }

/-- Observable events of one idle-sweep pass. -/
inductive SweepEv : Type
  /-- session-timeout notification delivered to `ws` (lines 243-246) -/
  | notified (ws : Nat)
  /-- session-timeout notification send raised, caught at line 255 -/
  | notifyFailed (ws : Nat)
  /-- Python `disconnect` called on `ws` in the `finally` block (line 263) -/
  | disconnected (ws : Nat)
  /-- stale activity entry removed with no live connection (lines 265-267) -/
  | staleRemoved (room client : String)
  /-- an exception while handling this entry, caught at line 268 -/
  | entryError (room client : String)
deriving DecidableEq, Repr

/-- Lines 234-238 of `check_timeout`: the first websocket whose bound
label is `client_id` and which is live in `room_id`. -/
def find_websocket_to_remove (st : ConnState) (room_id client_id : String) : Option Nat :=
  st.client_ids.findSome? fun p =>
    if p.2 = client_id ∧ ((alistLookup st.active_connections room_id).getD []).contains p.1
    then some p.1 else none

/-- The guarded activity-entry deletion of lines 260-261 / 266-267. -/
def removeActivityEntry (st : ConnState) (room client : String) : ConnState :=
  match alistLookup st.last_activity_times room with
  | none => st
  | some m =>
    if (alistLookup m client).isSome then
      { st with last_activity_times :=
          alistInsert st.last_activity_times room (alistErase m client) }
    else st

/-- The per-(room, client) body of `check_timeout` (lines 226-267).  A
`KeyError` from the direct index at line 227 (room gone) is caught by the
per-client handler and reported as `entryError`.  `sendFails` models the
timeout-notification `send_json` raising. -/
def sweepClient (st : ConnState) (room_id client_id : String) (now : Int)
    (sendFails : Nat → Bool) : ConnState × List SweepEv :=
  match alistLookup st.last_activity_times room_id with
  | none => (st, [SweepEv.entryError room_id client_id])
  | some m =>
    let last_activity := (alistLookup m client_id).getD 0
    if now - last_activity > 3600 then
      match find_websocket_to_remove st room_id client_id with
      | some ws =>
        let notifyEv := if sendFails ws then SweepEv.notifyFailed ws else SweepEv.notified ws
        let stA := removeActivityEntry st room_id client_id
        ((disconnect stA ws room_id now).1, [notifyEv, SweepEv.disconnected ws])
      | none =>
        (removeActivityEntry st room_id client_id,
         [SweepEv.staleRemoved room_id client_id])
    else (st, [])

/-- One step of the per-client loop (lines 225-272): `raises room client
= true` models an arbitrary runtime fault while handling that entry,
caught by the per-client `except ... continue` (lines 268-272); otherwise
the entry is handled by `sweepClient`. -/
def sweepStep (room_id : String) (now : Int) (sendFails : Nat → Bool)
    (raises : String → String → Bool) (acc : ConnState × List SweepEv) (c : String) :
    ConnState × List SweepEv :=
  if raises room_id c then (acc.1, acc.2 ++ [SweepEv.entryError room_id c])
  else
    let r := sweepClient acc.1 room_id c now sendFails
    (r.1, acc.2 ++ r.2)

/-- The inner loop of one sweep pass over a snapshot `clients` of one
room's activity keys (lines 224-272). -/
def sweepClients (st : ConnState) (room_id : String) (clients : List String)
    (now : Int) (sendFails : Nat → Bool) (raises : String → String → Bool) :
    ConnState × List SweepEv :=
  clients.foldl (sweepStep room_id now sendFails raises) (st, [])

/-- One full pass of `check_timeout` (lines 214-278), without the
enclosing `while True` / `sleep`: iterate a snapshot of the room keys,
skip rooms that vanished, sweep each room's client snapshot, then drop
rooms whose activity map is empty (lines 275-278). -/
def check_timeout_pass (st : ConnState) (now : Int) (sendFails : Nat → Bool)
    (raises : String → String → Bool) : ConnState × List SweepEv :=
  let rooms := st.last_activity_times.map Prod.fst
  let out := rooms.foldl
    (fun acc r =>
      match alistLookup acc.1.last_activity_times r with
      | none => acc
      | some m =>
        let res := sweepClients acc.1 r (m.map Prod.fst) now sendFails raises
        (res.1, acc.2 ++ res.2))
    (st, ([] : List SweepEv))
  ({ out.1 with last_activity_times :=
      out.1.last_activity_times.filter (fun p => !p.2.isEmpty) }, out.2)

/-- Observable socket effects of one receive-loop iteration. -/
inductive Effect : Type
  /-- Python `send_json` of a pong frame echoing the timestamp (line 411) -/
  | pong (timestamp : Option String)
  /-- Python `manager.broadcast(room_id, data)` invoked (line 427) -/
  | broadcastMsg (room : String) (msg : Message)
deriving DecidableEq, Repr

/-- One iteration of the `websocket_endpoint` receive loop after a frame
`data` arrives (lines 377-454).  Returns the new manager state, the
socket effects in order, and whether an uncaught exception escaped the
iteration (terminating the loop via the handler at lines 460-466).
Note the `try` at line 425 is at the same indentation as the
`if`/`elif`/`else` dispatch of lines 392-424, so the broadcast call runs
for every frame type. -/
def receiveFrame (st : ConnState) (ws : Nat) (room_id : String) (data : Message)
    (now : Int) : ConnState × List Effect × Bool :=
  match alistLookup data "type" with
  | none => (st, [], true)
  | some mtype =>
    if mtype = "register_client" then
      match alistLookup data "client_id" with
      | none => (st, [], true)
      | some cid =>
        let register_room_id := (alistLookup data "room_id").getD room_id
        let uci := update_client_id st ws cid register_room_id now
        if uci.error then (uci.state, [], true)
        else
          let st1 := update_activity_time uci.state room_id cid now
          (st1, [Effect.broadcastMsg room_id data], false)
    else if mtype = "ping" then
      let eff := Effect.pong (alistLookup data "timestamp")
      let cid := (alistLookup st.client_ids ws).getD unknownClient
      let st1 := if cid ≠ unknownClient then update_activity_time st room_id cid now else st
      (st1, [eff, Effect.broadcastMsg room_id data], false)
    else
      let cid := (alistLookup st.client_ids ws).getD unknownClient
      let st1 := if cid ≠ unknownClient then update_activity_time st room_id cid now else st
      (st1, [Effect.broadcastMsg room_id data], false)

/-- The manager state at process start: all maps empty, safe list from
config. -/
def initState (safe : List RoomEntry) : ConnState := ⟨[], [], [], [], [], [], safe⟩

/-! ### Association-list lemmas -/

theorem alistLookup_insert {K V : Type} [DecidableEq K] (l : List (K × V)) (k : K) (v : V) :
    alistLookup (alistInsert l k v) k = some v := by
  induction l with
  | nil => simp [alistInsert, alistLookup]
  | cons p t ih =>
    obtain ⟨a, b⟩ := p
    by_cases h : a = k
    · simp [alistInsert, alistLookup, h]
    · simp [alistInsert, alistLookup, h, ih]

theorem alistLookup_insert_ne {K V : Type} [DecidableEq K] (l : List (K × V))
    (k k' : K) (v : V) (h : k' ≠ k) :
    alistLookup (alistInsert l k v) k' = alistLookup l k' := by
  induction l with
  | nil => simp [alistInsert, alistLookup, Ne.symm h]
  | cons p t ih =>
    obtain ⟨a, b⟩ := p
    by_cases hak : a = k
    · subst hak
      simp [alistInsert, alistLookup, Ne.symm h]
    · by_cases hak' : a = k'
      · subst hak'
        simp [alistInsert, alistLookup, hak]
      · simp [alistInsert, alistLookup, hak, hak', ih]

theorem alistLookup_eq_none_iff {K V : Type} [DecidableEq K] (l : List (K × V)) (k : K) :
    alistLookup l k = none ↔ k ∉ l.map Prod.fst := by
  induction l with
  | nil => simp [alistLookup]
  | cons p t ih =>
    obtain ⟨a, b⟩ := p
    by_cases h : a = k
    · subst h
      simp [alistLookup]
    · simp [alistLookup, h, ih, Ne.symm h]

theorem alistErase_of_lookup_none {K V : Type} [DecidableEq K] (l : List (K × V)) (k : K)
    (h : alistLookup l k = none) : alistErase l k = l := by
  induction l with
  | nil => rfl
  | cons p t ih =>
    obtain ⟨a, b⟩ := p
    by_cases hak : a = k
    · simp [alistLookup, hak] at h
    · simp [alistLookup, hak] at h
      simp [alistErase, hak, ih h]

theorem alistLookup_erase_self {K V : Type} [DecidableEq K] (l : List (K × V)) (k : K)
    (h : keysNodup l) : alistLookup (alistErase l k) k = none := by
  induction l with
  | nil => rfl
  | cons p t ih =>
    obtain ⟨a, b⟩ := p
    obtain ⟨ha, ht⟩ := List.nodup_cons.mp h
    by_cases hak : a = k
    · subst hak
      simpa [alistErase, alistLookup_eq_none_iff] using ha
    · simp [alistErase, alistLookup, hak, ih ht]

theorem alistLookup_erase_ne {K V : Type} [DecidableEq K] (l : List (K × V))
    (k k' : K) (h : k' ≠ k) :
    alistLookup (alistErase l k) k' = alistLookup l k' := by
  induction l with
  | nil => rfl
  | cons p t ih =>
    obtain ⟨a, b⟩ := p
    by_cases hak : a = k
    · subst hak
      simp [alistErase, alistLookup, Ne.symm h]
    · by_cases hak' : a = k'
      · subst hak'
        simp [alistErase, alistLookup, hak]
      · simp [alistErase, alistLookup, hak, hak', ih]

theorem mem_of_alistLookup {K V : Type} [DecidableEq K] {l : List (K × V)} {k : K} {v : V}
    (h : alistLookup l k = some v) : (k, v) ∈ l := by
  induction l with
  | nil => simp [alistLookup] at h
  | cons p t ih =>
    obtain ⟨a, b⟩ := p
    by_cases hak : a = k
    · subst hak
      simp [alistLookup] at h
      simp [h]
    · simp [alistLookup, hak] at h
      exact List.mem_cons_of_mem _ (ih h)

theorem mem_alistInsert {K V : Type} [DecidableEq K] {l : List (K × V)} {k : K} {v : V}
    {p : K × V} (h : p ∈ alistInsert l k v) : p ∈ l ∨ p = (k, v) := by
  induction l with
  | nil => simp [alistInsert] at h; simp [h]
  | cons q t ih =>
    obtain ⟨a, b⟩ := q
    by_cases hak : a = k
    · subst hak
      simp [alistInsert] at h
      rcases h with h | h
      · right; simp [h]
      · left; exact List.mem_cons_of_mem _ h
    · simp [alistInsert, hak] at h
      rcases h with h | h
      · left; simp [h]
      · rcases ih h with h' | h'
        · left; exact List.mem_cons_of_mem _ h'
        · right; exact h'

theorem mem_alistErase {K V : Type} [DecidableEq K] {l : List (K × V)} {k : K}
    {p : K × V} (h : p ∈ alistErase l k) : p ∈ l := by
  induction l with
  | nil => simp [alistErase] at h
  | cons q t ih =>
    obtain ⟨a, b⟩ := q
    by_cases hak : a = k
    · subst hak
      simp [alistErase] at h
      exact List.mem_cons_of_mem _ h
    · simp [alistErase, hak] at h
      rcases h with h | h
      · simp [h]
      · exact List.mem_cons_of_mem _ (ih h)

theorem mem_keys_alistInsert {K V : Type} [DecidableEq K] {l : List (K × V)} {k a : K}
    {v : V} (h : a ∈ (alistInsert l k v).map Prod.fst) :
    a ∈ l.map Prod.fst ∨ a = k := by
  induction l with
  | nil =>
    simp only [alistInsert, List.map_cons, List.map_nil, List.mem_singleton] at h
    exact Or.inr h
  | cons q t ih =>
    obtain ⟨b, w⟩ := q
    simp only [List.map_cons, List.mem_cons]
    by_cases hbk : b = k
    · subst hbk
      simp only [alistInsert, eq_self_iff_true, if_true, List.map_cons, List.mem_cons] at h
      rcases h with h | h
      · exact Or.inr h
      · exact Or.inl (Or.inr h)
    · simp only [alistInsert, if_neg hbk, List.map_cons, List.mem_cons] at h
      rcases h with h | h
      · exact Or.inl (Or.inl h)
      · rcases ih h with h' | h'
        · exact Or.inl (Or.inr h')
        · exact Or.inr h'

theorem keysNodup_alistInsert {K V : Type} [DecidableEq K] {l : List (K × V)} (k : K)
    (v : V) (h : keysNodup l) : keysNodup (alistInsert l k v) := by
  induction l with
  | nil => simp [alistInsert, keysNodup]
  | cons q t ih =>
    obtain ⟨b, w⟩ := q
    have hb : b ∉ t.map Prod.fst := (List.nodup_cons.mp h).1
    have ht : keysNodup t := (List.nodup_cons.mp h).2
    by_cases hbk : b = k
    · subst hbk
      show keysNodup (if b = b then (b, v) :: t else _)
      rw [if_pos rfl]
      exact List.nodup_cons.mpr ⟨hb, ht⟩
    · show keysNodup (if b = k then _ else (b, w) :: alistInsert t k v)
      rw [if_neg hbk]
      refine List.nodup_cons.mpr ⟨?_, ih ht⟩
      intro hmem
      rcases mem_keys_alistInsert hmem with h' | h'
      · exact hb h'
      · exact hbk h'

/-- With distinct keys, an entry of `alistInsert l k v` is either an
entry of `l` at a different key, or the new binding. -/
theorem mem_alistInsert_nodup {K V : Type} [DecidableEq K] {l : List (K × V)} {k : K}
    {v : V} {p : K × V} (hl : keysNodup l) (h : p ∈ alistInsert l k v) :
    (p ∈ l ∧ p.1 ≠ k) ∨ p = (k, v) := by
  induction l with
  | nil =>
    simp only [alistInsert, List.mem_singleton] at h
    exact Or.inr h
  | cons q t ih =>
    obtain ⟨a, b⟩ := q
    have ha : a ∉ t.map Prod.fst := (List.nodup_cons.mp hl).1
    have ht : keysNodup t := (List.nodup_cons.mp hl).2
    by_cases hak : a = k
    · subst hak
      simp only [alistInsert, eq_self_iff_true, if_true, List.mem_cons] at h
      rcases h with h | h
      · exact Or.inr h
      · refine Or.inl ⟨List.mem_cons_of_mem _ h, ?_⟩
        intro hpk
        exact ha (hpk ▸ List.mem_map_of_mem Prod.fst h)
    · simp only [alistInsert, if_neg hak, List.mem_cons] at h
      rcases h with h | h
      · refine Or.inl ⟨List.mem_cons.mpr (Or.inl h), ?_⟩
        rw [h]
        exact hak
      · rcases ih ht h with ⟨h1, h2⟩ | h'
        · exact Or.inl ⟨List.mem_cons_of_mem _ h1, h2⟩
        · exact Or.inr h'

theorem not_mem_listRemove {A : Type} [DecidableEq A] (l : List A) (x : A)
    (h : l.Nodup) : x ∉ listRemove l x := by
  induction l with
  | nil => simp [listRemove]
  | cons a t ih =>
    obtain ⟨ha, ht⟩ := List.nodup_cons.mp h
    by_cases hax : a = x
    · subst hax
      simpa [listRemove] using ha
    · simp [listRemove, hax]
      exact ⟨Ne.symm hax, ih ht⟩

theorem mem_of_mem_listRemove {A : Type} [DecidableEq A] {l : List A} {x y : A}
    (h : y ∈ listRemove l x) : y ∈ l := by
  induction l with
  | nil => simp [listRemove] at h
  | cons a t ih =>
    by_cases hax : a = x
    · subst hax
      simp [listRemove] at h
      exact List.mem_cons_of_mem _ h
    · simp [listRemove, hax] at h
      rcases h with h | h
      · simp [h]
      · exact List.mem_cons_of_mem _ (ih h)

/-! ### Behaviour lemmas about the embedded operations -/

theorem broadcastStep_fold (safe : List RoomEntry) (norm : String) (message : Message)
    (f : Nat → Bool) (conns : List Nat) (acc : BroadcastResult) :
    (conns.foldl (broadcastStep safe norm message f) acc).attempts =
      acc.attempts ++ conns.map (fun c => (c, outboundMessage safe norm message)) ∧
    (conns.foldl (broadcastStep safe norm message f) acc).successful_sends +
      (conns.foldl (broadcastStep safe norm message f) acc).failed_sends =
      acc.successful_sends + acc.failed_sends + conns.length := by
  induction conns generalizing acc with
  | nil => simp
  | cons c t ih =>
    simp only [List.foldl_cons, List.map_cons]
    obtain ⟨h1, h2⟩ := ih (broadcastStep safe norm message f acc c)
    refine ⟨?_, ?_⟩
    · rw [h1]
      by_cases hf : f c <;> simp [broadcastStep, hf]
    · rw [h2]
      by_cases hf : f c <;> simp [broadcastStep, hf] <;> omega

theorem update_client_id_client_ids (st : ConnState) (ws : Nat) (c room : String)
    (now : Int) :
    (update_client_id st ws c room now).state.client_ids =
      alistInsert st.client_ids ws c := by
  unfold update_client_id uciFinish
  dsimp only
  repeat' split
  all_goals rfl

theorem disconnect_connection_times (st : ConnState) (ws : Nat) (room : String)
    (now : Int) :
    (disconnect st ws room now).1.connection_times = alistErase st.connection_times ws := by
  unfold disconnect
  dsimp only
  repeat' split
  all_goals rfl

theorem disconnect_client_ids (st : ConnState) (ws : Nat) (room : String) (now : Int) :
    (disconnect st ws room now).1.client_ids = alistErase st.client_ids ws := by
  unfold disconnect
  dsimp only
  repeat' split
  all_goals rfl

theorem disconnect_last_activity_times (st : ConnState) (ws : Nat) (room : String)
    (now : Int) :
    (disconnect st ws room now).1.last_activity_times = st.last_activity_times := by
  unfold disconnect
  dsimp only
  repeat' split
  all_goals rfl

/-- Calling `disconnect` on a handle with no registry state (not in the
connection-time map, not in the label map, member of no room) changes
nothing and reports nothing. -/
theorem disconnect_noop (st : ConnState) (ws : Nat) (room : String) (now2 : Int)
    (h1 : alistLookup st.connection_times ws = none)
    (h2 : alistLookup st.client_ids ws = none)
    (h3 : ∀ conns, alistLookup st.active_connections (normalize_room_id room) = some conns
      → ws ∉ conns) :
    disconnect st ws room now2 = (st, false) := by
  unfold disconnect
  dsimp only
  rw [h1, h2, alistErase_of_lookup_none st.connection_times ws h1]
  cases hA : alistLookup st.active_connections (normalize_room_id room) with
  | none =>
    simp only
    rw [alistErase_of_lookup_none st.client_ids ws h2]
    simp
  | some conns =>
    simp only
    rw [if_neg (h3 conns hA)]
    rw [alistErase_of_lookup_none st.client_ids ws h2]
    simp

/-- After `disconnect st ws room now`, the handle `ws` is in no room's
membership (given well-formed state and `ws` present at most in the
disconnected room). -/
theorem disconnect_removes_ws (st : ConnState) (ws : Nat) (room : String) (now : Int)
    (hA : keysNodup st.active_connections)
    (hN : ∀ p ∈ st.active_connections, (p.2 : List Nat).Nodup)
    (hO : ∀ p ∈ st.active_connections, p.1 ≠ normalize_room_id room → ws ∉ p.2) :
    ∀ r conns,
      alistLookup (disconnect st ws room now).1.active_connections r = some conns →
        ws ∉ conns := by
  intro r conns h
  by_cases hr : r = normalize_room_id room
  · subst hr
    unfold disconnect at h
    dsimp only at h
    split at h
    · rename_i conns0 heq
      split at h
      · rename_i hmem
        split at h
        · -- room became empty: its entry was erased
          dsimp only at h
          rw [alistLookup_erase_self st.active_connections _ hA] at h
          exact absurd h (by simp)
        · -- room still non-empty: membership is `listRemove conns0 ws`
          have hrem : alistLookup
              (alistInsert st.active_connections (normalize_room_id room)
                (listRemove conns0 ws)) (normalize_room_id room)
              = some (listRemove conns0 ws) := alistLookup_insert _ _ _
          have hnodup : conns0.Nodup := hN _ (mem_of_alistLookup heq)
          split at h
          · split at h
            · dsimp only at h
              rw [hrem] at h
              cases h
              exact not_mem_listRemove conns0 ws hnodup
            · dsimp only at h
              rw [hrem] at h
              cases h
              exact not_mem_listRemove conns0 ws hnodup
          · dsimp only at h
            rw [hrem] at h
            cases h
            exact not_mem_listRemove conns0 ws hnodup
      · -- ws was not a member of the room
        rename_i hmem
        dsimp only at h
        rw [heq] at h
        cases h
        exact hmem
    · -- the room had no entry at all
      rename_i heq
      dsimp only at h
      rw [heq] at h
      exact absurd h (by simp)
  · -- a different room: its membership is unchanged by disconnect
    have hsame : alistLookup (disconnect st ws room now).1.active_connections r
        = alistLookup st.active_connections r := by
      unfold disconnect
      dsimp only
      repeat' split
      all_goals dsimp only
      · rw [alistLookup_erase_ne _ _ _ hr]
      all_goals rw [alistLookup_insert_ne _ _ _ _ hr]
    rw [hsame] at h
    exact hO _ (mem_of_alistLookup h) hr

theorem sweepStep_acc (room : String) (now : Int) (f : Nat → Bool)
    (raises : String → String → Bool) (acc : ConnState × List SweepEv) (c : String) :
    sweepStep room now f raises acc c
      = ((sweepStep room now f raises (acc.1, []) c).1,
         acc.2 ++ (sweepStep room now f raises (acc.1, []) c).2) := by
  unfold sweepStep
  split <;> simp

theorem sweepStep_fold (room : String) (now : Int) (f : Nat → Bool)
    (raises : String → String → Bool) (cs : List String)
    (acc : ConnState × List SweepEv) :
    cs.foldl (sweepStep room now f raises) acc
      = ((cs.foldl (sweepStep room now f raises) (acc.1, [])).1,
         acc.2 ++ (cs.foldl (sweepStep room now f raises) (acc.1, [])).2) := by
  induction cs generalizing acc with
  | nil => simp
  | cons c t ih =>
    simp only [List.foldl_cons]
    rw [sweepStep_acc room now f raises acc c, ih,
      ih (sweepStep room now f raises (acc.1, []) c)]
    simp

/-- Closed form of `update_client_id` when the room has entries in both
timing maps (the situation `connect` establishes): no `KeyError`, the
refresh decision is `0 < now - t0 < 5`, the notification additionally
requires `now - lr > 10`, the refresh map is touched only on
notification, and the last-connect and last-activity stamps are set to
`now` in every branch. -/
theorem update_client_id_eq (st : ConnState) (ws : Nat) (c room : String) (now : Int)
    (mc mr : List (String × Int))
    (hc : alistLookup st.last_connection_times (normalize_room_id room) = some mc)
    (hr : alistLookup st.last_refresh_times (normalize_room_id room) = some mr) :
    update_client_id st ws c room now =
      ⟨{ st with
           client_ids := alistInsert st.client_ids ws c,
           last_refresh_times :=
             if decide (now - (alistLookup mc c).getD 0 > 0 ∧
                        now - (alistLookup mc c).getD 0 < 5) &&
                decide (now - (alistLookup mr c).getD 0 > 10) then
               alistInsert st.last_refresh_times (normalize_room_id room)
                 (alistInsert mr c now)
             else st.last_refresh_times,
           last_connection_times :=
             alistInsert st.last_connection_times (normalize_room_id room)
               (alistInsert mc c now),
           last_activity_times :=
             alistInsert st.last_activity_times (normalize_room_id room)
               (alistInsert
                 ((alistLookup st.last_activity_times (normalize_room_id room)).getD [])
                 c now) },
        false,
        decide (now - (alistLookup mc c).getD 0 > 0 ∧
                now - (alistLookup mc c).getD 0 < 5),
        decide (now - (alistLookup mc c).getD 0 > 0 ∧
                now - (alistLookup mc c).getD 0 < 5) &&
          decide (now - (alistLookup mr c).getD 0 > 10)⟩ := by
  unfold update_client_id uciFinish
  dsimp only
  rw [show alist2Lookup st.last_connection_times (normalize_room_id room) c
        = alistLookup mc c by simp [alist2Lookup, hc],
      show alist2Lookup st.last_refresh_times (normalize_room_id room) c
        = alistLookup mr c by simp [alist2Lookup, hr],
      hc, hr]
  by_cases h1 : (alistLookup mc c).getD 0 < now ∧ now - (alistLookup mc c).getD 0 < 5
  · by_cases h2 : 10 < now - (alistLookup mr c).getD 0
    · simp [h1, h2, hc, hr, sub_pos]
    · simp [h1, h2, hc, hr, sub_pos]
  · simp [h1, hc, hr, sub_pos]

/-- The C8 invariant: every room present in the active-connection map
has a non-empty membership list. -/
def roomsNonEmpty (st : ConnState) : Prop :=
  ∀ p ∈ st.active_connections, p.2 ≠ ([] : List Nat)

instance (st : ConnState) : Decidable (roomsNonEmpty st) := by
  unfold roomsNonEmpty
  infer_instance

theorem connect_preserves_roomsNonEmpty (st : ConnState) (ws : Nat) (room : String)
    (now : Int) (hA : keysNodup st.active_connections) (h : roomsNonEmpty st) :
    roomsNonEmpty (connect st ws room now) := by
  intro p hp
  unfold connect at hp
  dsimp only at hp
  split at hp
  · dsimp only at hp
    rcases mem_alistInsert_nodup (keysNodup_alistInsert _ _ hA) hp with ⟨h1, hne1⟩ | h2
    · rcases mem_alistInsert_nodup hA h1 with ⟨h3, _⟩ | h4
      · exact h p h3
      · exact absurd (congrArg Prod.fst h4) hne1
    · rw [h2]
      simp
  · rcases mem_alistInsert_nodup hA hp with ⟨h1, _⟩ | h2
    · exact h p h1
    · rw [h2]
      simp

theorem disconnect_preserves_roomsNonEmpty (st : ConnState) (ws : Nat) (room : String)
    (now : Int) (hA : keysNodup st.active_connections) (h : roomsNonEmpty st) :
    roomsNonEmpty (disconnect st ws room now).1 := by
  intro p hp
  unfold disconnect at hp
  dsimp only at hp
  repeat' split at hp
  all_goals dsimp only at hp
  all_goals
    first
      | exact h p (mem_alistErase hp)
      | exact h p hp
      | (rcases mem_alistInsert_nodup hA hp with ⟨h1, _⟩ | h2
         exacts [h p h1, by simp_all [List.isEmpty_iff]])

theorem update_client_id_active (st : ConnState) (ws : Nat) (c room : String)
    (now : Int) :
    (update_client_id st ws c room now).state.active_connections =
      st.active_connections := by
  unfold update_client_id uciFinish
  dsimp only
  repeat' split
  all_goals rfl

theorem removeActivityEntry_active (st : ConnState) (room c : String) :
    (removeActivityEntry st room c).active_connections = st.active_connections := by
  unfold removeActivityEntry
  repeat' split
  all_goals rfl

theorem removeActivityEntry_roomsNonEmpty (st : ConnState) (room c : String)
    (h : roomsNonEmpty st) : roomsNonEmpty (removeActivityEntry st room c) := by
  intro p hp
  rw [removeActivityEntry_active] at hp
  exact h p hp

theorem removeActivityEntry_keysNodup (st : ConnState) (room c : String)
    (hA : keysNodup st.active_connections) :
    keysNodup (removeActivityEntry st room c).active_connections := by
  rw [removeActivityEntry_active]
  exact hA

theorem sweepClient_preserves_roomsNonEmpty (st : ConnState) (room c : String)
    (now : Int) (f : Nat → Bool) (hA : keysNodup st.active_connections)
    (h : roomsNonEmpty st) :
    roomsNonEmpty (sweepClient st room c now f).1 := by
  unfold sweepClient
  dsimp only
  repeat' split
  all_goals dsimp only
  all_goals
    first
      | exact h
      | exact disconnect_preserves_roomsNonEmpty _ _ _ _
          (removeActivityEntry_keysNodup st room c hA)
          (removeActivityEntry_roomsNonEmpty st room c h)
      | exact removeActivityEntry_roomsNonEmpty st room c h

/-- When `disconnect` removes a room's last connection it deletes that
room's membership entry and its last-connect and last-refresh maps,
while the last-activity map is untouched. -/
theorem disconnect_empty_room_cleanup (st : ConnState) (ws : Nat) (room : String)
    (now : Int) (conns : List Nat)
    (hA : keysNodup st.active_connections)
    (hC : keysNodup st.last_connection_times)
    (hR : keysNodup st.last_refresh_times)
    (heq : alistLookup st.active_connections (normalize_room_id room) = some conns)
    (hmem : ws ∈ conns)
    (hempty : listRemove conns ws = []) :
    alistLookup (disconnect st ws room now).1.active_connections
      (normalize_room_id room) = none ∧
    alistLookup (disconnect st ws room now).1.last_connection_times
      (normalize_room_id room) = none ∧
    alistLookup (disconnect st ws room now).1.last_refresh_times
      (normalize_room_id room) = none ∧
    (disconnect st ws room now).1.last_activity_times = st.last_activity_times := by
  unfold disconnect
  dsimp only
  rw [heq]
  dsimp only
  rw [if_pos hmem, hempty]
  simp only [List.isEmpty_nil, if_true]
  exact ⟨alistLookup_erase_self _ _ hA, alistLookup_erase_self _ _ hC,
    alistLookup_erase_self _ _ hR, trivial⟩

theorem alist2Lookup_some {l : List (String × List (String × Int))} {r c : String}
    {v : Int} :
    alist2Lookup l r c = some v ↔
      ∃ m, alistLookup l r = some m ∧ alistLookup m c = some v := by
  unfold alist2Lookup
  cases h : alistLookup l r <;> simp

/-- Any last-connect record present after `disconnect` is either an old
record, or the disconnect-time record written for the bound label — and
the latter only when the label was identified and the room kept other
connections. -/
theorem disconnect_last_connection_writes (st : ConnState) (ws : Nat) (room : String)
    (now : Int) (r c : String) (t : Int)
    (hC : keysNodup st.last_connection_times)
    (h : alist2Lookup (disconnect st ws room now).1.last_connection_times r c = some t) :
    alist2Lookup st.last_connection_times r c = some t ∨
    (r = normalize_room_id room ∧
     c = (alistLookup st.client_ids ws).getD unknownClient ∧
     (alistLookup st.client_ids ws).getD unknownClient ≠ unknownClient ∧ t = now ∧
     ∃ conns0, alistLookup st.active_connections (normalize_room_id room) = some conns0 ∧
       ws ∈ conns0 ∧ listRemove conns0 ws ≠ []) := by
  unfold disconnect at h
  dsimp only at h
  split at h
  next conns heq =>
    split at h
    next hmem =>
      split at h
      next hrem =>
        dsimp only at h
        by_cases hr : r = normalize_room_id room
        · subst hr
          rw [alist2Lookup_some] at h
          obtain ⟨m, hm, _⟩ := h
          rw [alistLookup_erase_self _ _ hC] at hm
          exact absurd hm (by simp)
        · rw [alist2Lookup_some] at h
          obtain ⟨m, hm, hmc⟩ := h
          rw [alistLookup_erase_ne _ _ _ hr] at hm
          exact Or.inl (alist2Lookup_some.mpr ⟨m, hm, hmc⟩)
      next hrem =>
        split at h
        next hcid =>
          split at h
          next m hm =>
            dsimp only at h
            by_cases hr : r = normalize_room_id room
            · subst hr
              rw [alist2Lookup_some] at h
              obtain ⟨m', hm', hmc⟩ := h
              rw [alistLookup_insert] at hm'
              cases hm'
              by_cases hcc : c = (alistLookup st.client_ids ws).getD unknownClient
              · rw [hcc, alistLookup_insert] at hmc
                cases hmc
                refine Or.inr ⟨rfl, hcc, hcid, rfl, conns, heq, hmem, ?_⟩
                intro hrem'
                rw [hrem'] at hrem
                simp at hrem
              · rw [alistLookup_insert_ne _ _ _ _ hcc] at hmc
                exact Or.inl (alist2Lookup_some.mpr ⟨m, hm, hmc⟩)
            · rw [alist2Lookup_some] at h
              obtain ⟨m', hm', hmc⟩ := h
              rw [alistLookup_insert_ne _ _ _ _ hr] at hm'
              exact Or.inl (alist2Lookup_some.mpr ⟨m', hm', hmc⟩)
          next hm => exact Or.inl h
        next hcid => exact Or.inl h
    next hmem => exact Or.inl h
  next heq => exact Or.inl h

/-- When a client label has no last-connect record in a room, Identify
classifies FRESH_CONNECT (given a wall-clock time of at least 5 — time
since the epoch is far larger in practice). -/
theorem update_client_id_fresh_of_no_record (st : ConnState) (ws : Nat)
    (c room : String) (t1 : Int) (h5 : 5 ≤ t1)
    (h : alist2Lookup st.last_connection_times (normalize_room_id room) c = none) :
    (update_client_id st ws c room t1).refresh = false := by
  unfold update_client_id
  dsimp only
  rw [h]
  simp only [Option.getD_none]
  rw [if_neg (by omega : ¬ (t1 - 0 > 0 ∧ t1 - 0 < 5))]
  unfold uciFinish
  split <;> rfl

/-! ### Concrete example states used by the counterexample / code-bug
theorems -/

/-- Room "000123" with two unidentified connections (handles 0 and 1),
no safe rooms configured. -/
def exTwoConnState : ConnState :=
  connect (connect (initState []) 0 "000123" 10) 1 "000123" 11

/-- A ping frame carrying timestamp "42". -/
def exPingFrame : Message := [("type", "ping"), ("timestamp", "42")]

/-- Safe-room configuration as a YAML int entry `1234`, with two
connections in the corresponding room "001234", the first identified as
"alice". -/
def exSafeIntState : ConnState :=
  (update_client_id
    (connect (connect (initState [RoomEntry.rint 1234]) 0 "001234" 10) 1 "001234" 11)
    0 "alice" "001234" 20).state

/-- A text message carrying the sender's true client label. -/
def exLabeledMsg : Message := [("type", "text"), ("client_id", "alice")]

/-! ### Claim theorems -/

/-- C1 (code bug, failing input): in the receive loop, the `try` block
holding `manager.broadcast(room_id, data)` (line 425) sits at the same
indentation as the frame-type dispatch (lines 392-424), outside the
`else` branch that its own comment (line 424, "broadcast other messages
to the room") announces.  Hence a `ping` frame is NOT handled purely
locally: the handler replies `pong` echoing the caller's timestamp and
then *also* invokes `Broadcast(room, frame)` on the ping frame, contrary
to the claim that register/ping frames are never passed to `Broadcast`. -/
theorem receiveFrame_ping_is_broadcast :
    receiveFrame exTwoConnState 0 "000123" exPingFrame 100 =
      (exTwoConnState,
       [Effect.pong (some "42"), Effect.broadcastMsg "000123" exPingFrame],
       false) := by decide

/-- C2 (code bug, failing input): with the safe list configured as the
YAML int `1234` — the representation the four logging sites (lines 100,
179, 249, 399) explicitly convert via
`str(room).zfill(6) if isinstance(room, int) else room` — the logging
paths treat room "001234" as safe, yet `broadcast` (line 131) tests the
normalized string room id against the raw list, where a Python int never
equals a string, so both recipients receive the message with the true
client label "alice" and zero redacted copies are sent. -/
theorem broadcast_misses_int_safe_room :
    safe_rooms_str exSafeIntState.safe_room_ids = [normalize_room_id "001234"] ∧
    safeContains exSafeIntState.safe_room_ids (normalize_room_id "001234") = false ∧
    (broadcast exSafeIntState "001234" exLabeledMsg (fun _ => false)).2.attempts =
      [(0, exLabeledMsg), (1, exLabeledMsg)] ∧
    alistLookup exLabeledMsg "client_id" = some "alice" := by decide

/-- C3 (code bug, failing input): `update_client_id` called with a room
for which no connection state exists (here: the socket is connected to
room "000123", and a register frame names room "999999") raises a
`KeyError` at line 197, where `self.last_connection_times[normalized_room_id]`
is indexed directly — contradicting the claim (and the spec's failure
semantics) that registry operations on an unknown room never raise. -/
theorem update_client_id_unknown_room_raises :
    (update_client_id (connect (initState []) 0 "000123" 50) 0 "alice" "999999" 100).error
      = true := by decide

/-- C5: for every `Broadcast(R, M)`, each connection in the room's
membership at call time receives exactly one send attempt (in membership
order, regardless of which sends fail — partial-failure isolation);
on completion `successful_sends + failed_sends` equals the number of
connections in the room; and broadcasting to a room with no live
connections performs no sends and raises no error. -/
theorem broadcast_send_accounting :
    ∀ (st : ConnState) (room : String) (message : Message) (f : Nat → Bool),
      (∀ conns, alistLookup st.active_connections (normalize_room_id room) = some conns →
        (broadcast st room message f).2.attempts.map Prod.fst = conns ∧
        (broadcast st room message f).2.successful_sends +
          (broadcast st room message f).2.failed_sends = conns.length) ∧
      (alistLookup st.active_connections (normalize_room_id room) = none →
        (broadcast st room message f).2 = ⟨[], 0, 0⟩) := by
  intro st room message f
  constructor
  · intro conns h
    have hb : (broadcast st room message f).2 =
        conns.foldl (broadcastStep st.safe_room_ids (normalize_room_id room) message f)
          ⟨[], 0, 0⟩ := by
      simp [broadcast, h]
    obtain ⟨h1, h2⟩ := broadcastStep_fold st.safe_room_ids (normalize_room_id room)
      message f conns ⟨[], 0, 0⟩
    rw [hb]
    refine ⟨?_, ?_⟩
    · rw [h1]
      simp [List.map_map, Function.comp_def]
    · simpa using h2
  · intro h
    simp [broadcast, h]

/-- Witness for C5: room "000123" holds connections [0, 1]; with a forced
failure on connection 0's send, both connections are attempted and
`successful_sends + failed_sends = 2`. -/
theorem broadcast_send_accounting_witness :
    (broadcast exTwoConnState "000123" exLabeledMsg (fun c => c == 0)).2.attempts.map
        Prod.fst = [0, 1] ∧
    (broadcast exTwoConnState "000123" exLabeledMsg (fun c => c == 0)).2.successful_sends +
      (broadcast exTwoConnState "000123" exLabeledMsg (fun c => c == 0)).2.failed_sends
      = 2 := by
  have h := (broadcast_send_accounting exTwoConnState "000123" exLabeledMsg
    (fun c => c == 0)).1 [0, 1] (by decide)
  simpa using h

/-- C9: redaction never mutates stored state: `broadcast` returns the
manager state unchanged; every message handed to `send_json` agrees with
the caller's message on every field other than `client_id` (the caller's
message object itself is a distinct, unmodified value); and the
registry's stored client-label binding after `Identify` holds the true
label supplied, never the placeholder. -/
theorem redaction_never_mutates_state :
    (∀ st room message f, (broadcast st room message f).1 = st) ∧
    (∀ st room message f c m, (c, m) ∈ (broadcast st room message f).2.attempts →
      ∀ k, k ≠ "client_id" → alistLookup m k = alistLookup message k) ∧
    (∀ st ws cid room now,
      alistLookup (update_client_id st ws cid room now).state.client_ids ws = some cid) := by
  refine ⟨?_, ?_, ?_⟩
  · intro st room message f
    unfold broadcast
    dsimp only
    split <;> rfl
  · intro st room message f c m hm k hk
    unfold broadcast at hm
    dsimp only at hm
    split at hm
    · simp at hm
    · rename_i conns _
      have h1 := (broadcastStep_fold st.safe_room_ids (normalize_room_id room)
        message f conns ⟨[], 0, 0⟩).1
      rw [h1] at hm
      simp only [List.nil_append, List.mem_map] at hm
      obtain ⟨c', _, hc'⟩ := hm
      injection hc' with hc1 hc2
      rw [← hc2]
      unfold outboundMessage
      split
      · exact alistLookup_insert_ne message "client_id" k anonPlaceholder hk
      · rfl
  · intro st ws cid room now
    rw [update_client_id_client_ids]
    exact alistLookup_insert st.client_ids ws cid

/-- Witness for C9: after identifying connection 0 as "alice" in room
"000123", the stored binding is the true label "alice". -/
theorem redaction_never_mutates_state_witness :
    alistLookup (update_client_id exTwoConnState 0 "alice" "000123" 20).state.client_ids 0
      = some "alice" :=
  redaction_never_mutates_state.2.2 exTwoConnState 0 "alice" "000123" 20

/-- C4: on Identify of client `c` in room `R` at `t1`, with `t0` the
recorded last-disconnect time (0 if none): the REFRESH branch fires iff
`0 < t1 - t0 < 5`; a REFRESH notification is emitted iff additionally
more than 10 seconds passed since the last emitted refresh notification;
in every branch the last-connect and last-activity stamps become `t1`;
and after a notified REFRESH at `t1`, a second Identify at `t2 ≤ t1 + 10`
emits no second notification (two REFRESH events within 10 seconds yield
exactly one notification). -/
theorem reconnect_classifier_correct :
    ∀ (st : ConnState) (ws : Nat) (c room : String) (t1 : Int)
      (mc mr : List (String × Int)),
      alistLookup st.last_connection_times (normalize_room_id room) = some mc →
      alistLookup st.last_refresh_times (normalize_room_id room) = some mr →
      ((update_client_id st ws c room t1).refresh = true ↔
        (0 < t1 - (alistLookup mc c).getD 0 ∧ t1 - (alistLookup mc c).getD 0 < 5)) ∧
      ((update_client_id st ws c room t1).notified = true ↔
        ((update_client_id st ws c room t1).refresh = true ∧
         10 < t1 - (alistLookup mr c).getD 0)) ∧
      (update_client_id st ws c room t1).error = false ∧
      alist2Lookup (update_client_id st ws c room t1).state.last_connection_times
        (normalize_room_id room) c = some t1 ∧
      alist2Lookup (update_client_id st ws c room t1).state.last_activity_times
        (normalize_room_id room) c = some t1 ∧
      (∀ t2, (update_client_id st ws c room t1).notified = true → t2 - t1 ≤ 10 →
        (update_client_id (update_client_id st ws c room t1).state ws c room t2).notified
          = false) := by
  intro st ws c room t1 mc mr hc hr
  rw [update_client_id_eq st ws c room t1 mc mr hc hr]
  refine ⟨by simp [sub_pos], by simp, rfl, ?_, ?_, ?_⟩
  · simp [alist2Lookup, alistLookup_insert]
  · simp [alist2Lookup, alistLookup_insert]
  · intro t2 hnote hle
    simp only at hnote
    rw [update_client_id_eq _ ws c room t2 (alistInsert mc c t1) (alistInsert mr c t1)
      (by simp [alistLookup_insert])
      (by simp only [hnote]; exact alistLookup_insert _ _ _)]
    simp only
    have h10 : ¬ (10 < t2 - (alistLookup (alistInsert mr c t1) c).getD 0) := by
      rw [alistLookup_insert]
      simp only [Option.getD_some]
      omega
    simp [h10]

/-- A registry state for the C4 witness: room "000123" holds connection 0
bound to "alice", whose recorded last-disconnect time is 95; no refresh
was ever notified. -/
def exC4State : ConnState :=
  ⟨[("000123", [0])], [(0, "alice")], [(0, 90)],
   [("000123", [("alice", 95)])], [("000123", [])], [("000123", [])], []⟩

/-- Witness for C4: re-identify at t1 = 98 (3 s after the disconnect at
95): REFRESH fires and is notified; a further Identify at t2 = 100
(2 s later, within the 10 s dedup window) emits no second notification. -/
theorem reconnect_classifier_correct_witness :
    (update_client_id exC4State 0 "alice" "000123" 98).refresh = true ∧
    (update_client_id exC4State 0 "alice" "000123" 98).notified = true ∧
    (update_client_id (update_client_id exC4State 0 "alice" "000123" 98).state
        0 "alice" "000123" 100).notified = false := by
  have h := reconnect_classifier_correct exC4State 0 "alice" "000123" 98
    [("alice", 95)] [] (by decide) (by decide)
  have hrefresh : (update_client_id exC4State 0 "alice" "000123" 98).refresh = true :=
    h.1.mpr (by decide)
  have hnote : (update_client_id exC4State 0 "alice" "000123" 98).notified = true :=
    h.2.1.mpr ⟨hrefresh, by decide⟩
  exact ⟨hrefresh, hnote, h.2.2.2.2.2 100 hnote (by decide)⟩

/-- C7: Disconnect is idempotent: after `disconnect` removes a handle,
the handle appears in no room's membership, and a second `disconnect` on
the already-removed handle returns the state unchanged (every registry
structure intact) and emits no duplicate duration report. -/
theorem disconnect_idempotent :
    ∀ (st : ConnState) (ws : Nat) (room : String) (now now2 : Int),
      keysNodup st.connection_times →
      keysNodup st.client_ids →
      keysNodup st.active_connections →
      (∀ p ∈ st.active_connections, (p.2 : List Nat).Nodup) →
      (∀ p ∈ st.active_connections, p.1 ≠ normalize_room_id room → ws ∉ p.2) →
      (∀ r conns,
        alistLookup (disconnect st ws room now).1.active_connections r = some conns →
          ws ∉ conns) ∧
      disconnect (disconnect st ws room now).1 ws room now2
        = ((disconnect st ws room now).1, false) := by
  intro st ws room now now2 hct hci hA hN hO
  have hrem := disconnect_removes_ws st ws room now hA hN hO
  refine ⟨hrem, ?_⟩
  apply disconnect_noop
  · rw [disconnect_connection_times]
    exact alistLookup_erase_self _ _ hct
  · rw [disconnect_client_ids]
    exact alistLookup_erase_self _ _ hci
  · intro conns h
    exact hrem _ _ h

/-- Witness for C7: disconnecting handle 0 from room "000123" twice;
the second call changes nothing and reports no duration. -/
theorem disconnect_idempotent_witness :
    disconnect (disconnect exTwoConnState 0 "000123" 100).1 0 "000123" 200
      = ((disconnect exTwoConnState 0 "000123" 100).1, false) :=
  (disconnect_idempotent exTwoConnState 0 "000123" 100 200 (by decide) (by decide)
    (by decide) (by decide) (by decide)).2

/-- C6: in each IdleSweeper pass, a (room, client) activity entry
triggers eviction iff `now - last_activity` strictly exceeds 3600
seconds: below or at the threshold the entry is left untouched; above
it, when a live connection bound to the label exists the notification is
attempted first (`notified`/`notifyFailed`) and the connection is then
disconnected unconditionally — a notification failure (`f ws = true`)
yields exactly the same eviction; when no live connection exists only
the stale activity entry is removed; and an entry whose handling raises
is skipped without aborting the rest of the pass. -/
theorem idle_sweep_correct :
    (∀ (st : ConnState) (room c : String) (now : Int) (f : Nat → Bool) m,
      alistLookup st.last_activity_times room = some m →
      ¬ 3600 < now - (alistLookup m c).getD 0 →
      sweepClient st room c now f = (st, [])) ∧
    (∀ (st : ConnState) (room c : String) (now : Int) (f : Nat → Bool) m ws,
      alistLookup st.last_activity_times room = some m →
      3600 < now - (alistLookup m c).getD 0 →
      find_websocket_to_remove st room c = some ws →
      sweepClient st room c now f =
        ((disconnect (removeActivityEntry st room c) ws room now).1,
         [if f ws then SweepEv.notifyFailed ws else SweepEv.notified ws,
          SweepEv.disconnected ws])) ∧
    (∀ (st : ConnState) (room c : String) (now : Int) (f : Nat → Bool) m,
      alistLookup st.last_activity_times room = some m →
      3600 < now - (alistLookup m c).getD 0 →
      find_websocket_to_remove st room c = none →
      sweepClient st room c now f =
        (removeActivityEntry st room c, [SweepEv.staleRemoved room c])) ∧
    (∀ (st : ConnState) (room c : String) (cs : List String) (now : Int)
      (f : Nat → Bool) (raises : String → String → Bool),
      raises room c = true →
      sweepClients st room (c :: cs) now f raises
        = ((sweepClients st room cs now f raises).1,
           SweepEv.entryError room c :: (sweepClients st room cs now f raises).2)) := by
  refine ⟨?_, ?_, ?_, ?_⟩
  · intro st room c now f m hm hn
    unfold sweepClient
    rw [hm]
    simp only
    rw [if_neg hn]
  · intro st room c now f m ws hm ht hf
    unfold sweepClient
    rw [hm]
    simp only
    rw [if_pos ht, hf]
  · intro st room c now f m hm ht hf
    unfold sweepClient
    rw [hm]
    simp only
    rw [if_pos ht, hf]
  · intro st room c cs now f raises hr
    unfold sweepClients
    simp only [List.foldl_cons]
    have hstep : sweepStep room now f raises (st, []) c = (st, [SweepEv.entryError room c]) := by
      unfold sweepStep
      rw [if_pos hr]
      simp
    rw [hstep, sweepStep_fold]
    simp

/-- A registry state for the C6 witness: room "000123" holds connection 0
bound to "alice", with "alice"'s last activity recorded at time 1000. -/
def exC6State : ConnState :=
  ⟨[("000123", [0])], [(0, "alice")], [(0, 90)],
   [("000123", [("alice", 95)])], [("000123", [])],
   [("000123", [("alice", 1000)])], []⟩

/-- Witness for C6: swept at 4601 (= 1000 + 3601) with a failing
notification send, "alice" is still evicted (notify attempt first, then
disconnect); swept at 4599 (= 1000 + 3599) nothing happens. -/
theorem idle_sweep_correct_witness :
    sweepClient exC6State "000123" "alice" 4601 (fun _ => true)
      = ((disconnect (removeActivityEntry exC6State "000123" "alice") 0 "000123" 4601).1,
         [SweepEv.notifyFailed 0, SweepEv.disconnected 0]) ∧
    sweepClient exC6State "000123" "alice" 4599 (fun _ => true) = (exC6State, []) := by
  constructor
  · have h := idle_sweep_correct.2.1 exC6State "000123" "alice" 4601 (fun _ => true)
      [("alice", 1000)] 0 (by decide) (by decide) (by decide)
    simpa using h
  · exact idle_sweep_correct.1 exC6State "000123" "alice" 4599 (fun _ => true)
      [("alice", 1000)] (by decide) (by decide)

/-- C8: the non-empty-room invariant is preserved by every operation
(Connect, Disconnect, Identify, UpdateActivity, sweep eviction); and when
Disconnect removes a room's last connection it deletes the room's
membership entry AND its last-connect and last-refresh timing maps,
while the room's last-activity map is not deleted by Disconnect. -/
theorem active_rooms_nonempty_invariant :
    (∀ (st : ConnState) (ws : Nat) (room : String) (now : Int),
      keysNodup st.active_connections → roomsNonEmpty st →
      roomsNonEmpty (connect st ws room now)) ∧
    (∀ (st : ConnState) (ws : Nat) (room : String) (now : Int),
      keysNodup st.active_connections → roomsNonEmpty st →
      roomsNonEmpty (disconnect st ws room now).1) ∧
    (∀ (st : ConnState) (ws : Nat) (c room : String) (now : Int),
      roomsNonEmpty st → roomsNonEmpty (update_client_id st ws c room now).state) ∧
    (∀ (st : ConnState) (room c : String) (now : Int),
      roomsNonEmpty st → roomsNonEmpty (update_activity_time st room c now)) ∧
    (∀ (st : ConnState) (room c : String) (now : Int) (f : Nat → Bool),
      keysNodup st.active_connections → roomsNonEmpty st →
      roomsNonEmpty (sweepClient st room c now f).1) ∧
    (∀ (st : ConnState) (ws : Nat) (room : String) (now : Int) (conns : List Nat),
      keysNodup st.active_connections → keysNodup st.last_connection_times →
      keysNodup st.last_refresh_times →
      alistLookup st.active_connections (normalize_room_id room) = some conns →
      ws ∈ conns → listRemove conns ws = [] →
      alistLookup (disconnect st ws room now).1.active_connections
        (normalize_room_id room) = none ∧
      alistLookup (disconnect st ws room now).1.last_connection_times
        (normalize_room_id room) = none ∧
      alistLookup (disconnect st ws room now).1.last_refresh_times
        (normalize_room_id room) = none ∧
      (disconnect st ws room now).1.last_activity_times = st.last_activity_times) := by
  refine ⟨connect_preserves_roomsNonEmpty, disconnect_preserves_roomsNonEmpty, ?_, ?_,
    sweepClient_preserves_roomsNonEmpty, disconnect_empty_room_cleanup⟩
  · intro st ws c room now h p hp
    rw [update_client_id_active] at hp
    exact h p hp
  · intro st room c now h p hp
    exact h p hp

/-- Witness for C8: connecting handle 0 to fresh room "000123" yields a
non-empty room, and disconnecting the room's only connection deletes the
membership entry and both timing maps while leaving the activity map. -/
theorem active_rooms_nonempty_invariant_witness :
    roomsNonEmpty (connect (initState []) 0 "000123" 10) ∧
    (alistLookup (disconnect (connect (initState []) 0 "000123" 10) 0 "000123"
        100).1.active_connections (normalize_room_id "000123") = none ∧
     alistLookup (disconnect (connect (initState []) 0 "000123" 10) 0 "000123"
        100).1.last_connection_times (normalize_room_id "000123") = none ∧
     alistLookup (disconnect (connect (initState []) 0 "000123" 10) 0 "000123"
        100).1.last_refresh_times (normalize_room_id "000123") = none ∧
     (disconnect (connect (initState []) 0 "000123" 10) 0 "000123"
        100).1.last_activity_times
       = (connect (initState []) 0 "000123" 10).last_activity_times) :=
  ⟨active_rooms_nonempty_invariant.1 (initState []) 0 "000123" 10 (by decide) (by decide),
   active_rooms_nonempty_invariant.2.2.2.2.2 (connect (initState []) 0 "000123" 10)
     0 "000123" 100 [0] (by decide) (by decide) (by decide) (by decide) (by decide)
     (by decide)⟩

/-- C10 (implicit): Disconnect records a last-disconnect time only for an
identified label (not the default "unknown_client") and only when the
room keeps remaining connections — any other last-connect record after
Disconnect is an old one; and a client with no last-connect record in a
room (in particular one whose previous connection never identified) is
always classified FRESH_CONNECT by the next Identify. -/
theorem unidentified_disconnect_no_record :
    (∀ (st : ConnState) (ws : Nat) (room : String) (now : Int) (r c : String) (t : Int),
      keysNodup st.last_connection_times →
      alist2Lookup (disconnect st ws room now).1.last_connection_times r c = some t →
      alist2Lookup st.last_connection_times r c = some t ∨
      (r = normalize_room_id room ∧
       c = (alistLookup st.client_ids ws).getD unknownClient ∧
       (alistLookup st.client_ids ws).getD unknownClient ≠ unknownClient ∧ t = now ∧
       ∃ conns0,
         alistLookup st.active_connections (normalize_room_id room) = some conns0 ∧
         ws ∈ conns0 ∧ listRemove conns0 ws ≠ [])) ∧
    (∀ (st : ConnState) (ws : Nat) (c room : String) (t1 : Int), 5 ≤ t1 →
      alist2Lookup st.last_connection_times (normalize_room_id room) c = none →
      (update_client_id st ws c room t1).refresh = false) :=
  ⟨fun st ws room now r c t hC h =>
      disconnect_last_connection_writes st ws room now r c t hC h,
   fun st ws c room t1 h5 h =>
      update_client_id_fresh_of_no_record st ws c room t1 h5 h⟩

/-- The registry state for the C10 witness: room "000123" holds handles
0 and 1, handle 0 identified as "alice" at time 20. -/
def exC10State : ConnState :=
  (update_client_id exTwoConnState 0 "alice" "000123" 20).state

/-- Witness for C10: disconnecting the identified handle 0 at time 100
while handle 1 remains produces a record explained by the theorem's
disjunction; and Identify of "bob" in a registry with no record for him
classifies FRESH_CONNECT. -/
theorem unidentified_disconnect_no_record_witness :
    (alist2Lookup exC10State.last_connection_times "000123" "alice" = some 100 ∨
     ("000123" = normalize_room_id "000123" ∧
      "alice" = (alistLookup exC10State.client_ids 0).getD unknownClient ∧
      (alistLookup exC10State.client_ids 0).getD unknownClient ≠ unknownClient ∧
      (100 : Int) = 100 ∧
      ∃ conns0,
        alistLookup exC10State.active_connections (normalize_room_id "000123")
          = some conns0 ∧
        0 ∈ conns0 ∧ listRemove conns0 0 ≠ [])) ∧
    (update_client_id (initState []) 0 "bob" "999999" 50).refresh = false :=
  ⟨unidentified_disconnect_no_record.1 exC10State 0 "000123" 100 "000123" "alice" 100
     (by decide) (by decide),
   unidentified_disconnect_no_record.2 (initState []) 0 "bob" "999999" 50
     (by decide) (by decide)⟩

end WebShelter
